import Mathlib

/-!
# Verification of the meteora-trending-pairs monitoring core

A shallow embedding, in Lean 4, of the pool-data cache
(`src/backend/pool_cache.py`), the opportunity evaluator
(`analyze_opportunities` in `src/backend/app.py`), the capital-rotation
monitor (`src/backend/monitoring_service.py`) and the position automation
monitor (`src/backend/liquidity_monitoring_service.py`), together with
theorems settling the specification's claims about them.

Conventions:
* Python floats are modelled as `ℚ` (the algorithms only add, multiply,
  divide and compare, which is exact on the inputs of interest).
* Timestamps are modelled as integers (seconds for the cache layer,
  minutes for the monitor layer, matching the units each layer computes in).
* Network fetches are modelled by passing the would-be fetch outcome as an
  explicit argument; each cache/monitor step additionally reports whether
  the upstream fetch was actually consulted.
* Fields that Python reads with `dict.get`/`float(...)` coercion are
  modelled as `Option ℚ`, `none` standing for a missing or unparseable
  value.
-/

namespace MeteoraPairs

/-! ## Pool data cache (`src/backend/pool_cache.py`) -/

/-- A raw pool record from the Meteora `pair/all` endpoint, restricted to the
fields `PoolDataCache._filter_pools` reads.  `liquidity = none` models a value
for which `float(...)` raises (`ValueError`/`TypeError`); a missing key is
`some 0` (the `.get('liquidity', 0)` default). -/
structure RawPool where
  hide : Bool
  is_blacklisted : Bool
  liquidity : Option ℚ
  deriving Repr, DecidableEq

/-- The statistics dictionary of `PoolDataCache` (the fields whose updates are
pure bookkeeping; `last_fetch_duration` is wall-clock measurement and is not
modelled). -/
structure CacheStats where
  cache_hits : ℕ
  cache_misses : ℕ
  total_pools_raw : ℕ
  total_pools_filtered : ℕ
  pools_filtered_out : ℕ
  hidden_filtered : ℕ
  blacklisted_filtered : ℕ
  low_tvl_filtered : ℕ
  deriving Repr, DecidableEq

/-- The mutable state of `PoolDataCache` as set up by `_initialize`. -/
structure CacheState where
  pools_data : Option (List RawPool)
  last_fetch : Option ℤ
  cache_duration_seconds : ℤ
  min_tvl : ℚ
  filter_hidden : Bool
  filter_blacklisted : Bool
  stats : CacheStats
  deriving Repr, DecidableEq

/-- `PoolDataCache._initialize`. -/
def initialCacheState : CacheState :=
  { pools_data := none
    last_fetch := none
    cache_duration_seconds := 300
    min_tvl := 100
    filter_hidden := true
    filter_blacklisted := true
    stats := ⟨0, 0, 0, 0, 0, 0, 0, 0⟩ }

/-- `PoolDataCache._is_cache_fresh`: `False` when either `pools_data` or
`last_fetch` is `None`, otherwise the age in seconds is strictly below the
cache duration. -/
def is_cache_fresh (s : CacheState) (now : ℤ) : Bool :=
  match s.pools_data, s.last_fetch with
  | some _, some lf => decide (now - lf < s.cache_duration_seconds)
  | _, _ => false

/-- Which branch of the `_filter_pools` loop body a pool takes (in source
order: the `hide` check, then the blacklist check, then the minimum-TVL
check, a conversion failure counting as low TVL). -/
inductive FilterOutcome
  | hidden
  | blacklisted
  | lowTvl
  | keep
  deriving Repr, DecidableEq

/-- The loop body of `PoolDataCache._filter_pools` for one pool. -/
def classify_pool (s : CacheState) (pool : RawPool) : FilterOutcome :=
  if s.filter_hidden && pool.hide then .hidden
  else if s.filter_blacklisted && pool.is_blacklisted then .blacklisted
  else
    match pool.liquidity with
    | none => .lowTvl
    | some tvl => if tvl < s.min_tvl then .lowTvl else .keep

/-- Per-call statistics returned by `_filter_pools`. -/
structure FilterStats where
  hidden_count : ℕ
  blacklisted_count : ℕ
  low_tvl_count : ℕ
  total_filtered : ℕ
  deriving Repr, DecidableEq

/-- `PoolDataCache._filter_pools`: the kept pools together with the filter
statistics. -/
def filter_pools (s : CacheState) (pools_data : List RawPool) :
    List RawPool × FilterStats :=
  let filtered := pools_data.filter (fun p => classify_pool s p == .keep)
  ( filtered
  , { hidden_count := pools_data.countP (fun p => classify_pool s p == .hidden)
      blacklisted_count := pools_data.countP (fun p => classify_pool s p == .blacklisted)
      low_tvl_count := pools_data.countP (fun p => classify_pool s p == .lowTvl)
      total_filtered := pools_data.length - filtered.length } )

/-- `PoolDataCache._fetch_fresh_data`, with the outcome of the would-be
upstream HTTP call passed in as `fetch` (`Except.error ()` standing for a
raised `requests.RequestException`).  Returns the call's result, the new
cache state, and whether the upstream fetch was actually issued. -/
def fetch_fresh_data (s : CacheState) (now : ℤ) (fetch : Except Unit (List RawPool)) :
    Except Unit (List RawPool) × CacheState × Bool :=
  -- Double-check under the fetch lock: another thread might have just fetched.
  if is_cache_fresh s now then
    (Except.ok (s.pools_data.getD []),
     { s with stats := { s.stats with cache_hits := s.stats.cache_hits + 1 } }, false)
  else
    let s := { s with stats := { s.stats with cache_misses := s.stats.cache_misses + 1 } }
    match fetch with
    | Except.ok raw_pools =>
        let s := { s with stats := { s.stats with total_pools_raw := raw_pools.length } }
        let fp := filter_pools s raw_pools
        (Except.ok fp.1,
         { s with
            pools_data := some fp.1
            last_fetch := some now
            stats := { s.stats with
                        total_pools_filtered := fp.1.length
                        pools_filtered_out := fp.2.total_filtered
                        hidden_filtered := fp.2.hidden_count
                        blacklisted_filtered := fp.2.blacklisted_count
                        low_tvl_filtered := fp.2.low_tvl_count } }, true)
    | Except.error e =>
        -- `if self.pools_data:` — Python truthiness: a previous *empty* list
        -- does not count, so the exception is re-raised in that case.
        match s.pools_data with
        | some (p :: ps) => (Except.ok (p :: ps), s, true)
        | _ => (Except.error e, s, true)

/-- `PoolDataCache.get_pools`. -/
def get_pools (s : CacheState) (now : ℤ) (force_refresh : Bool)
    (fetch : Except Unit (List RawPool)) :
    Except Unit (List RawPool) × CacheState × Bool :=
  if !force_refresh && is_cache_fresh s now then
    (Except.ok (s.pools_data.getD []),
     { s with stats := { s.stats with cache_hits := s.stats.cache_hits + 1 } }, false)
  else
    fetch_fresh_data s now fetch

end MeteoraPairs

namespace MeteoraPairs

/-- C1: with `force_refresh = false` and a fresh cache, `get_pools` returns the
cached list unchanged, performs no upstream fetch, and leaves `pools_data` and
`last_fetch` untouched; the same holds for a caller that reaches
`_fetch_fresh_data` and finds the cache fresh at the double-check. -/
theorem fresh_cache_hit_no_fetch (s : CacheState) (now : ℤ) (pd : List RawPool)
    (fetch : Except Unit (List RawPool))
    (hfresh : is_cache_fresh s now = true) (hpd : s.pools_data = some pd) :
    (get_pools s now false fetch).1 = Except.ok pd ∧
    (get_pools s now false fetch).2.1.pools_data = s.pools_data ∧
    (get_pools s now false fetch).2.1.last_fetch = s.last_fetch ∧
    (get_pools s now false fetch).2.2 = false ∧
    (fetch_fresh_data s now fetch).1 = Except.ok pd ∧
    (fetch_fresh_data s now fetch).2.1.pools_data = s.pools_data ∧
    (fetch_fresh_data s now fetch).2.1.last_fetch = s.last_fetch ∧
    (fetch_fresh_data s now fetch).2.2 = false := by
  simp [get_pools, fetch_fresh_data, hfresh, hpd]

/-- Witness for `fresh_cache_hit_no_fetch` at a concrete fresh cache state. -/
theorem fresh_cache_hit_no_fetch_witness :
    (get_pools { initialCacheState with
                  pools_data := some [⟨false, false, some 5000⟩]
                  last_fetch := some 0 } 100 false (Except.error ())).1 =
      Except.ok [⟨false, false, some 5000⟩] ∧
    (get_pools { initialCacheState with
                  pools_data := some [⟨false, false, some 5000⟩]
                  last_fetch := some 0 } 100 false (Except.error ())).2.2 = false := by
  have h := fresh_cache_hit_no_fetch
    { initialCacheState with
        pools_data := some [⟨false, false, some 5000⟩]
        last_fetch := some 0 }
    100 [⟨false, false, some 5000⟩] (Except.error ()) (by decide) (by decide)
  exact ⟨h.1, h.2.2.2.1⟩

/-- C2 counterexample: a previously fetched result can exist (a stored *empty*
pool list, with `last_fetch` set) and the fetch error still propagates,
because `if self.pools_data:` treats the empty list as absent.  This refutes
"propagates the fetch error only when no previous result exists". -/
theorem stale_fallback_empty_list_counterexample :
    ({ initialCacheState with pools_data := some [], last_fetch := some 0 } :
        CacheState).pools_data = some [] ∧
    (fetch_fresh_data
        { initialCacheState with pools_data := some [], last_fetch := some 0 }
        400 (Except.error ())).1 = Except.error () :=
  ⟨rfl, rfl⟩

/-- C2 (amended): when the upstream fetch inside `_fetch_fresh_data` fails,
`get_pools` returns the previously fetched pool list whenever a previous
*non-empty* result exists, leaving the stored cache data (`pools_data`,
`last_fetch`) unmodified, and propagates the fetch error when no previous
result exists or the previous result is the empty list. -/
theorem stale_fallback_on_fetch_failure (s : CacheState) (now : ℤ) (e : Unit)
    (hstale : is_cache_fresh s now = false) :
    (∀ p ps, s.pools_data = some (p :: ps) →
        (get_pools s now true (Except.error e)).1 = Except.ok (p :: ps) ∧
        (get_pools s now true (Except.error e)).2.1.pools_data = s.pools_data ∧
        (get_pools s now true (Except.error e)).2.1.last_fetch = s.last_fetch) ∧
    ((s.pools_data = none ∨ s.pools_data = some []) →
        (get_pools s now true (Except.error e)).1 = Except.error e) := by
  constructor
  · intro p ps hpd
    simp [get_pools, fetch_fresh_data, hstale, hpd]
  · rintro (hpd | hpd) <;> simp [get_pools, fetch_fresh_data, hstale, hpd]

/-- Witness for `stale_fallback_on_fetch_failure`: a populated stale cache
falls back to the stored list on fetch failure. -/
theorem stale_fallback_on_fetch_failure_witness :
    (get_pools { initialCacheState with
                  pools_data := some [⟨false, false, some 5000⟩]
                  last_fetch := some 0 } 400 true (Except.error ())).1 =
      Except.ok [⟨false, false, some 5000⟩] := by
  have h := stale_fallback_on_fetch_failure
    { initialCacheState with
        pools_data := some [⟨false, false, some 5000⟩]
        last_fetch := some 0 }
    400 () (by decide)
  exact (h.1 ⟨false, false, some 5000⟩ [] (by decide)).1

/-! ## Opportunity evaluator (`analyze_opportunities` in `src/backend/app.py`) -/

/-- `QUOTE_TOKENS['SOL']`. -/
def SOL_MINT : String := "So11111111111111111111111111111111111111112"

/-- `QUOTE_TOKENS['USDC']`. -/
def USDC_MINT : String := "EPjFWdd5AufqSSqeM2qN1xzybapC8G4wEGGkZwyTDt1v"

/-- The `safe_float` helper of `analyze_opportunities`: `None`, the empty
string and unparseable values (all modelled by `none`) map to the default 0. -/
def safe_float (value : Option ℚ) : ℚ :=
  value.getD 0

/-- A pool record as consumed by the `analyze_opportunities` loop body.
`fees_min_30` is `pool['fees']['min_30']`, `volume_min_30` is
`pool['volume']['min_30']`; `none` models a missing/unparseable value. -/
structure PoolJson where
  address : String
  name : String
  mint_x : String
  mint_y : String
  fees_min_30 : Option ℚ
  volume_min_30 : Option ℚ
  liquidity : Option ℚ
  bin_step : ℤ
  base_fee_percentage : Option ℚ
  deriving Repr, DecidableEq

/-- The opportunity dictionary built by `analyze_opportunities`. -/
structure Opportunity where
  address : String
  pairName : String
  quoteToken : String
  feeRate30min : ℚ
  fees30min : ℚ
  volume30min : ℚ
  liquidity : ℚ
  binStep : ℤ
  baseFee : ℚ
  score : ℚ
  mint_x : String
  mint_y : String
  deriving Repr, DecidableEq

/-- Membership of a mint in the `allowed_tokens` set (whitelist plus the
selected quote tokens). -/
def allowed_token (whitelist : List String) (quote_sol quote_usdc : Bool)
    (mint : String) : Bool :=
  whitelist.contains mint || (quote_sol && mint == SOL_MINT) ||
    (quote_usdc && mint == USDC_MINT)

/-- `fee_rate_30min = (fees_30min / liquidity * 100) if liquidity > 0 else 0`
in `analyze_opportunities`. -/
def fee_rate_30min_calc (fees_30min liquidity : ℚ) : ℚ :=
  if 0 < liquidity then fees_30min / liquidity * 100 else 0

/-- The body of the `for pool in all_pools` loop of `analyze_opportunities`:
`none` when the pool is skipped by a `continue`, otherwise the opportunity
record appended to the result. -/
def eval_pool (whitelist : List String) (quote_sol quote_usdc : Bool)
    (min_fees_30min : ℚ) (pool : PoolJson) : Option Opportunity :=
  -- Both tokens must be in the allowed set (whitelist + quote tokens).
  if !(allowed_token whitelist quote_sol quote_usdc pool.mint_x &&
       allowed_token whitelist quote_sol quote_usdc pool.mint_y) then none
  -- At least one must be from the whitelist, unless it is a pure quote pair.
  else if !(whitelist.contains pool.mint_x || whitelist.contains pool.mint_y) &&
          !((pool.mint_x == SOL_MINT || pool.mint_x == USDC_MINT) &&
            (pool.mint_y == SOL_MINT || pool.mint_y == USDC_MINT)) then none
  else
    let quote_token :=
      if pool.mint_x == SOL_MINT || pool.mint_y == SOL_MINT then "SOL" else "USDC"
    let fees_30min := safe_float pool.fees_min_30
    let volume_30min := safe_float pool.volume_min_30
    let liquidity := safe_float pool.liquidity
    let fee_rate_30min := fee_rate_30min_calc fees_30min liquidity
    if liquidity < 1000 ∨ volume_30min < 20 then none
    else if fees_30min < min_fees_30min then none
    else some
      { address := pool.address
        pairName := pool.name
        quoteToken := quote_token
        feeRate30min := fee_rate_30min
        fees30min := fees_30min
        volume30min := volume_30min
        liquidity := liquidity
        binStep := pool.bin_step
        baseFee := safe_float pool.base_fee_percentage
        score := fee_rate_30min
        mint_x := pool.mint_x
        mint_y := pool.mint_y }

/-- A current-position record as read by `analyze_opportunities`
(`pos.get('address', '')`, `pos.get('pool_feeRate30min', 0)`). -/
structure PositionJson where
  address : String
  pool_feeRate30min : Option ℚ
  deriving Repr, DecidableEq

/-- `max([...], default=0)` over the positions' pool fee rates. -/
def position_best_fee_rate (current_positions : List PositionJson) : ℚ :=
  match current_positions.map (fun p => safe_float p.pool_feeRate30min) with
  | [] => 0
  | x :: xs => xs.foldl max x

/-- `MIN_IMPROVEMENT` in `analyze_opportunities`: an opportunity must beat the
best current position's fee rate by 30%. -/
def MIN_IMPROVEMENT : ℚ := 13 / 10

/-- The core of the `analyze_opportunities` route: candidate generation,
current-position filtering, descending sort by score and truncation to 20.
The empty-whitelist early return yields the empty opportunity list. -/
def analyze_opportunities (whitelist : List String) (quote_sol quote_usdc : Bool)
    (current_positions : List PositionJson) (min_fees_30min : ℚ)
    (all_pools : List PoolJson) : List Opportunity :=
  if whitelist = [] then []
  else
    let opportunities :=
      all_pools.filterMap (eval_pool whitelist quote_sol quote_usdc min_fees_30min)
    let position_addresses := current_positions.map (·.address)
    let opportunities :=
      if current_positions = [] then opportunities
      else
        opportunities.filter fun opp =>
          !(position_addresses.contains opp.address) &&
            decide (position_best_fee_rate current_positions * MIN_IMPROVEMENT <
              opp.feeRate30min)
    (opportunities.mergeSort (fun a b => decide (b.score ≤ a.score))).take 20

/-- A pool record kept by `eval_pool` satisfies the liquidity, volume and fee
floors, and its fee rate is the fees/liquidity ratio (0 on non-positive
liquidity). -/
theorem eval_pool_floors {whitelist : List String} {qs qu : Bool} {mf : ℚ}
    {pool : PoolJson} {opp : Opportunity}
    (h : eval_pool whitelist qs qu mf pool = some opp) :
    1000 ≤ opp.liquidity ∧ 20 ≤ opp.volume30min ∧ mf ≤ opp.fees30min ∧
    opp.feeRate30min =
      (if 0 < opp.liquidity then opp.fees30min / opp.liquidity * 100 else 0) := by
  simp only [eval_pool] at h
  split_ifs at h with h1 h2 h3 h4 <;> try exact Option.noConfusion h
  all_goals injection h with h
  all_goals subst h
  all_goals push_neg at h3 h4
  all_goals exact ⟨h3.1, h3.2, h4, rfl⟩

/-- Every record returned by `analyze_opportunities` comes from some input
pool via `eval_pool`. -/
theorem mem_analyze_opportunities {whitelist : List String} {qs qu : Bool}
    {positions : List PositionJson} {mf : ℚ} {pools : List PoolJson}
    {opp : Opportunity}
    (h : opp ∈ analyze_opportunities whitelist qs qu positions mf pools) :
    ∃ pool ∈ pools, eval_pool whitelist qs qu mf pool = some opp := by
  simp only [analyze_opportunities] at h
  split at h
  · exact absurd h (List.not_mem_nil opp)
  · have h1 := List.mem_mergeSort.mp (List.mem_of_mem_take h)
    split at h1
    · exact List.mem_filterMap.mp h1
    · exact List.mem_filterMap.mp (List.mem_filter.mp h1).1

end MeteoraPairs

namespace MeteoraPairs

/-- The C3 scenario pool: liquidity 50000, 30-minute fees 300, 30-minute
volume 1000, paired against SOL. -/
def poolC3 : PoolJson :=
  ⟨"p1", "TOK-SOL", "TOK", SOL_MINT, some 300, some 1000, some 50000, 10, some 1⟩

/-- The opportunity record `analyze_opportunities` derives from `poolC3`
(fee rate 300 / 50000 * 100 = 0.6). -/
def oppC3 : Opportunity :=
  ⟨"p1", "TOK-SOL", "SOL", 3 / 5, 300, 1000, 50000, 10, 1, 3 / 5, "TOK", SOL_MINT⟩

/-- C3: every record returned by the opportunity evaluator satisfies
`liquidity ≥ 1000`, `volume30min ≥ 20`, `fees30min ≥ minFees30min` and
`feeRate30min = fees30min / liquidity * 100` (0 on non-positive liquidity);
the scenario pool with liquidity 50000 and fees 300 gets fee rate 0.6 and is
returned with `minFees30min = 100` but not with `minFees30min = 500`. -/
theorem opportunity_floors :
    (∀ (whitelist : List String) (qs qu : Bool) (positions : List PositionJson)
        (mf : ℚ) (pools : List PoolJson) (opp : Opportunity),
        opp ∈ analyze_opportunities whitelist qs qu positions mf pools →
        1000 ≤ opp.liquidity ∧ 20 ≤ opp.volume30min ∧ mf ≤ opp.fees30min ∧
        opp.feeRate30min =
          (if 0 < opp.liquidity then opp.fees30min / opp.liquidity * 100 else 0)) ∧
    analyze_opportunities ["TOK"] true true [] 100 [poolC3] = [oppC3] ∧
    oppC3.feeRate30min = 3 / 5 ∧
    analyze_opportunities ["TOK"] true true [] 500 [poolC3] = [] := by
  refine ⟨?_, ?_, rfl, ?_⟩
  · intro wl qs qu pos mf pools opp h
    obtain ⟨pool, _, heval⟩ := mem_analyze_opportunities h
    exact eval_pool_floors heval
  · norm_num [analyze_opportunities, eval_pool, allowed_token, safe_float,
      fee_rate_30min_calc, poolC3, oppC3, SOL_MINT, USDC_MINT,
      List.mergeSort, List.filterMap_cons, List.filterMap_nil]
  · norm_num [analyze_opportunities, eval_pool, allowed_token, safe_float,
      fee_rate_30min_calc, poolC3, SOL_MINT, USDC_MINT,
      List.mergeSort, List.filterMap_cons, List.filterMap_nil]

/-- Witness for `opportunity_floors` at the concrete scenario input. -/
theorem opportunity_floors_witness :
    1000 ≤ oppC3.liquidity ∧ 20 ≤ oppC3.volume30min ∧ (100 : ℚ) ≤ oppC3.fees30min ∧
    oppC3.feeRate30min =
      (if 0 < oppC3.liquidity then oppC3.fees30min / oppC3.liquidity * 100 else 0) :=
  opportunity_floors.1 ["TOK"] true true [] 100 [poolC3] oppC3
    (by rw [opportunity_floors.2.1]; exact List.mem_singleton_self _)

/-- C4: with a non-empty `currentPositions`, every returned opportunity is for
a pool not among the current positions and beats the best current position's
fee rate by the 1.3 multiplier; the result is sorted by descending score and
holds at most 20 records. -/
theorem position_filter_sound (whitelist : List String) (qs qu : Bool)
    (positions : List PositionJson) (mf : ℚ) (pools : List PoolJson)
    (hpos : positions ≠ []) :
    (∀ opp ∈ analyze_opportunities whitelist qs qu positions mf pools,
        (positions.map (fun p => p.address)).contains opp.address = false ∧
        position_best_fee_rate positions * MIN_IMPROVEMENT < opp.feeRate30min) ∧
    (analyze_opportunities whitelist qs qu positions mf pools).Pairwise
      (fun a b => b.score ≤ a.score) ∧
    (analyze_opportunities whitelist qs qu positions mf pools).length ≤ 20 := by
  by_cases hwl : whitelist = []
  · refine ⟨fun opp h => absurd h ?_, ?_, ?_⟩ <;>
      simp [analyze_opportunities, hwl]
  · have heq : analyze_opportunities whitelist qs qu positions mf pools =
        (((pools.filterMap (eval_pool whitelist qs qu mf)).filter fun opp =>
            !((positions.map (fun p => p.address)).contains opp.address) &&
              decide (position_best_fee_rate positions * MIN_IMPROVEMENT <
                opp.feeRate30min)).mergeSort
          (fun a b => decide (b.score ≤ a.score))).take 20 := by
      simp only [analyze_opportunities, if_neg hwl, if_neg hpos]
    rw [heq]
    refine ⟨?_, ?_, ?_⟩
    · intro opp h
      have h1 := List.mem_mergeSort.mp (List.mem_of_mem_take h)
      have h2 := (List.mem_filter.mp h1).2
      rw [Bool.and_eq_true, Bool.not_eq_true', decide_eq_true_iff] at h2
      exact h2
    · have hs : (((pools.filterMap (eval_pool whitelist qs qu mf)).filter fun opp =>
            !((positions.map (fun p => p.address)).contains opp.address) &&
              decide (position_best_fee_rate positions * MIN_IMPROVEMENT <
                opp.feeRate30min)).mergeSort
          (fun a b => decide (b.score ≤ a.score))).Pairwise
            (fun a b => decide (b.score ≤ a.score)) :=
        List.sorted_mergeSort
          (fun a b c hab hbc => by
            rw [decide_eq_true_iff] at *
            exact le_trans hbc hab)
          (fun a b => by
            rcases le_total a.score b.score with h | h <;> simp [h])
          _
      exact ((hs.sublist (List.take_sublist _ _)).imp fun h => of_decide_eq_true h)
    · exact List.length_take_le _ _

/-- Witness for `position_filter_sound` at a concrete non-empty position
list. -/
theorem position_filter_sound_witness :
    (∀ opp ∈ analyze_opportunities ["TOK"] true true [⟨"q", some (1 / 10)⟩] 100 [poolC3],
        (([⟨"q", some (1 / 10)⟩] : List PositionJson).map (fun p => p.address)).contains
          opp.address = false ∧
        position_best_fee_rate [⟨"q", some (1 / 10)⟩] * MIN_IMPROVEMENT <
          opp.feeRate30min) ∧
    (analyze_opportunities ["TOK"] true true [⟨"q", some (1 / 10)⟩] 100 [poolC3]).Pairwise
      (fun a b => b.score ≤ a.score) ∧
    (analyze_opportunities ["TOK"] true true [⟨"q", some (1 / 10)⟩] 100 [poolC3]).length ≤ 20 :=
  position_filter_sound ["TOK"] true true [⟨"q", some (1 / 10)⟩] 100 [poolC3]
    (by decide)

/-! ## Capital-rotation monitor diff
(`MonitoringService._find_new_opportunities` in
`src/backend/monitoring_service.py`) -/

/-- An opportunity dictionary as handled by the monitoring service,
restricted to the fields `_find_new_opportunities` reads. -/
structure MonOpp where
  address : String
  feeRate30min : ℚ
  deriving Repr, DecidableEq

/-- A flagged opportunity: the dictionary `{**opp, 'reason': ...}`. -/
structure FlaggedOpp where
  opp : MonOpp
  reason : String
  deriving Repr, DecidableEq

/-- The reason string attached to a newly discovered pool. -/
def newPoolReason : String := "New pool discovered"

/-- The reason string attached to an improved pool
(`f'Fee rate improved by {improvement:.1f}%'`; the `:.1f` numeric formatting
is abstracted by `toString`). -/
def improvedReason (improvement : ℚ) : String :=
  "Fee rate improved by " ++ toString improvement ++ "%"

/-- The loop body of `MonitoringService._find_new_opportunities` for one
current opportunity: the flagged record it contributes, if any.
`Except.error ()` models the `ZeroDivisionError` raised while computing
`improvement = ((opp['feeRate30min'] / prev_opp['feeRate30min']) - 1) * 100`
when the improvement test passed but the found previous rate is zero; the
exception propagates out of the diff. -/
def flag_opportunity (previous : List MonOpp) (threshold : ℚ) (opp : MonOpp) :
    Except Unit (Option FlaggedOpp) :=
  if !((previous.map (fun p => p.address)).contains opp.address) then
    Except.ok (some ⟨opp, newPoolReason⟩)
  else
    match previous.find? (fun p => p.address == opp.address) with
    | some prev_opp =>
        if prev_opp.feeRate30min * threshold < opp.feeRate30min then
          if prev_opp.feeRate30min = 0 then Except.error ()
          else
            Except.ok (some ⟨opp, improvedReason
              ((opp.feeRate30min / prev_opp.feeRate30min - 1) * 100)⟩)
        else Except.ok none
    | none => Except.ok none

/-- `MonitoringService._find_new_opportunities`: the loop over `current`,
aborted by the first raised `ZeroDivisionError` (the partial `new_opps` list
is local and lost when the exception propagates). -/
def find_new_opportunities (previous current : List MonOpp) (threshold : ℚ) :
    Except Unit (List FlaggedOpp) :=
  match current with
  | [] => Except.ok []
  | opp :: rest =>
    match flag_opportunity previous threshold opp with
    | Except.error e => Except.error e
    | Except.ok res =>
      match find_new_opportunities previous rest threshold with
      | Except.error e => Except.error e
      | Except.ok tail =>
        Except.ok (match res with | some f => f :: tail | none => tail)

/-- The improved-branch reason never coincides with the new-pool reason
(their first characters differ). -/
theorem improvedReason_ne_newPoolReason (q : ℚ) :
    improvedReason q ≠ newPoolReason := by
  intro h
  have h2 : (improvedReason q).data.head? = newPoolReason.data.head? := by rw [h]
  rw [show (improvedReason q).data.head? = some 'F' from rfl] at h2
  rw [show newPoolReason.data.head? = some 'N' from rfl] at h2
  exact absurd h2 (by decide)

/-- A current opportunity absent from the previous snapshot is flagged as a
newly discovered pool. -/
theorem flag_absent_is_new (previous : List MonOpp) (threshold : ℚ) (opp : MonOpp)
    (habs : opp.address ∉ previous.map (fun p => p.address)) :
    flag_opportunity previous threshold opp =
      Except.ok (some ⟨opp, newPoolReason⟩) := by
  have hc : (previous.map (fun p => p.address)).contains opp.address = false := by
    simpa using habs
  unfold flag_opportunity
  rw [hc]
  rfl

/-- When the address is present in the previous snapshot, the `next(...)`
lookup finds a previous record. -/
theorem find_of_present (previous : List MonOpp) (opp : MonOpp)
    (hmem : opp.address ∈ previous.map (fun p => p.address)) :
    ∃ prev_opp, previous.find? (fun p => p.address == opp.address) = some prev_opp := by
  obtain ⟨p, hp, he⟩ := List.mem_map.mp hmem
  have hs : (previous.find? (fun p => p.address == opp.address)).isSome :=
    List.find?_isSome.mpr ⟨p, hp, by simp [he]⟩
  exact Option.isSome_iff_exists.mp hs

/-- A present opportunity whose rate beats the found previous rate times the
threshold is flagged as improved, provided the previous rate is nonzero. -/
theorem flag_improved (previous : List MonOpp) (threshold : ℚ) (opp prev_opp : MonOpp)
    (hfind : previous.find? (fun p => p.address == opp.address) = some prev_opp)
    (himp : prev_opp.feeRate30min * threshold < opp.feeRate30min)
    (hz : prev_opp.feeRate30min ≠ 0) :
    flag_opportunity previous threshold opp =
      Except.ok (some ⟨opp, improvedReason
        ((opp.feeRate30min / prev_opp.feeRate30min - 1) * 100)⟩) := by
  have hpmem := List.mem_of_find?_eq_some hfind
  have hpeq : prev_opp.address = opp.address := by
    simpa using List.find?_some hfind
  have hc : (previous.map (fun p => p.address)).contains opp.address = true := by
    simpa using List.mem_map.mpr ⟨prev_opp, hpmem, hpeq⟩
  unfold flag_opportunity
  rw [hc, hfind]
  rw [if_neg (show ¬((!(true : Bool)) = true) by decide)]
  simp [himp, hz]

/-- A present opportunity whose rate beats a *zero* previous rate times the
threshold makes the diff raise `ZeroDivisionError`. -/
theorem flag_zero_division (previous : List MonOpp) (threshold : ℚ)
    (opp prev_opp : MonOpp)
    (hfind : previous.find? (fun p => p.address == opp.address) = some prev_opp)
    (hz : prev_opp.feeRate30min = 0)
    (himp : prev_opp.feeRate30min * threshold < opp.feeRate30min) :
    flag_opportunity previous threshold opp = Except.error () := by
  have hpmem := List.mem_of_find?_eq_some hfind
  have hpeq : prev_opp.address = opp.address := by
    simpa using List.find?_some hfind
  have hc : (previous.map (fun p => p.address)).contains opp.address = true := by
    simpa using List.mem_map.mpr ⟨prev_opp, hpmem, hpeq⟩
  have himp2 : (0 : ℚ) < opp.feeRate30min := by
    rw [hz, zero_mul] at himp
    exact himp
  unfold flag_opportunity
  rw [hc, hfind]
  rw [if_neg (show ¬((!(true : Bool)) = true) by decide)]
  simp [hz, himp2]

/-- A present opportunity whose rate does not beat the found previous rate
times the threshold is not flagged. -/
theorem flag_not_improved (previous : List MonOpp) (threshold : ℚ) (opp prev_opp : MonOpp)
    (hfind : previous.find? (fun p => p.address == opp.address) = some prev_opp)
    (himp : ¬prev_opp.feeRate30min * threshold < opp.feeRate30min) :
    flag_opportunity previous threshold opp = Except.ok none := by
  have hpmem := List.mem_of_find?_eq_some hfind
  have hpeq : prev_opp.address = opp.address := by
    simpa using List.find?_some hfind
  have hc : (previous.map (fun p => p.address)).contains opp.address = true := by
    simpa using List.mem_map.mpr ⟨prev_opp, hpmem, hpeq⟩
  unfold flag_opportunity
  rw [hc, hfind]
  rw [if_neg (show ¬((!(true : Bool)) = true) by decide)]
  simp [himp]

/-- Forward computation of the diff loop over a cons cell. -/
theorem find_new_cons_ok (previous : List MonOpp) (threshold : ℚ) (c : MonOpp)
    (cur : List MonOpp) (res : Option FlaggedOpp) (tail : List FlaggedOpp)
    (hflag : flag_opportunity previous threshold c = Except.ok res)
    (htail : find_new_opportunities previous cur threshold = Except.ok tail) :
    find_new_opportunities previous (c :: cur) threshold =
      Except.ok (match res with | some f => f :: tail | none => tail) := by
  simp only [find_new_opportunities, hflag, htail]
  cases res <;> rfl

/-- Inversion of the diff loop over a cons cell: a successful diff comes from
a successful flag step and a successful tail. -/
theorem find_new_cons_ok_inv (previous : List MonOpp) (threshold : ℚ) (c : MonOpp)
    (cur : List MonOpp) (l : List FlaggedOpp)
    (h : find_new_opportunities previous (c :: cur) threshold = Except.ok l) :
    ∃ res tail, flag_opportunity previous threshold c = Except.ok res ∧
      find_new_opportunities previous cur threshold = Except.ok tail ∧
      l = (match res with | some f => f :: tail | none => tail) := by
  simp only [find_new_opportunities] at h
  rcases hflag : flag_opportunity previous threshold c with e | res <;>
    rw [hflag] at h <;> simp only at h
  · exact absurd h (by simp)
  · rcases htail : find_new_opportunities previous cur threshold with e | tail <;>
      rw [htail] at h <;> simp only at h
    · exact absurd h (by simp)
    · refine ⟨res, tail, rfl, rfl, ?_⟩
      injection h with h
      exact h.symm

end MeteoraPairs

namespace MeteoraPairs

/-- C5 counterexample: with the previous snapshot holding pool A at rate 0
and the current list holding A at rate 1, the claim's improved condition
`current > previous * threshold` holds, yet nothing is flagged — the diff
raises `ZeroDivisionError` computing the improvement percentage. -/
theorem monitor_diff_zero_rate_counterexample :
    (0 : ℚ) * (13 / 10) < 1 ∧
    (⟨"A", 1⟩ : MonOpp).address ∈ ([⟨"A", 0⟩] : List MonOpp).map (fun p => p.address) ∧
    find_new_opportunities [⟨"A", 0⟩] [⟨"A", 1⟩] (13 / 10) = Except.error () := by
  refine ⟨by norm_num, by simp, ?_⟩
  norm_num [find_new_opportunities, flag_opportunity, List.find?]

/-- C5 (amended): a record is flagged "new" exactly when its address is
absent from the previous snapshot, and "improved" exactly when present with
`current.feeRate30min > previous.feeRate30min * threshold` *and a nonzero
previous rate* (the looked-up previous record being the first with a
matching address); when the previous rate is zero and the test passes, the
diff raises `ZeroDivisionError` and flags nothing (aborting the tick); each
flagged record carries a reason string, the two reasons being distinct.
Scenario: with threshold 1.3 and previous rate 1.0, a current rate 1.4 is
flagged improved while 1.25 is not flagged. -/
theorem monitor_diff_characterization :
    (∀ (previous : List MonOpp) (threshold : ℚ) (opp : MonOpp),
        opp.address ∉ previous.map (fun p => p.address) →
          flag_opportunity previous threshold opp =
            Except.ok (some ⟨opp, newPoolReason⟩)) ∧
    (∀ (previous : List MonOpp) (opp : MonOpp),
        opp.address ∈ previous.map (fun p => p.address) →
          ∃ prev_opp,
            previous.find? (fun p => p.address == opp.address) = some prev_opp) ∧
    (∀ (previous : List MonOpp) (threshold : ℚ) (opp prev_opp : MonOpp),
        previous.find? (fun p => p.address == opp.address) = some prev_opp →
          (prev_opp.feeRate30min * threshold < opp.feeRate30min →
            (prev_opp.feeRate30min = 0 →
              flag_opportunity previous threshold opp = Except.error ()) ∧
            (prev_opp.feeRate30min ≠ 0 →
              flag_opportunity previous threshold opp =
                Except.ok (some ⟨opp, improvedReason
                  ((opp.feeRate30min / prev_opp.feeRate30min - 1) * 100)⟩))) ∧
          (¬prev_opp.feeRate30min * threshold < opp.feeRate30min →
            flag_opportunity previous threshold opp = Except.ok none)) ∧
    (∀ q : ℚ, improvedReason q ≠ newPoolReason) ∧
    find_new_opportunities [⟨"A", 1⟩] [⟨"A", 14 / 10⟩] (13 / 10) =
      Except.ok [⟨⟨"A", 14 / 10⟩, improvedReason 40⟩] ∧
    find_new_opportunities [⟨"A", 1⟩] [⟨"A", 5 / 4⟩] (13 / 10) = Except.ok [] := by
  refine ⟨flag_absent_is_new, find_of_present,
    fun previous threshold opp prev_opp hfind =>
      ⟨fun himp =>
        ⟨fun hz => flag_zero_division previous threshold opp prev_opp hfind hz himp,
         fun hz => flag_improved previous threshold opp prev_opp hfind himp hz⟩,
       flag_not_improved previous threshold opp prev_opp hfind⟩,
    improvedReason_ne_newPoolReason, ?_, ?_⟩ <;>
    norm_num [find_new_opportunities, flag_opportunity, List.find?]

/-- Witness for `monitor_diff_characterization` at the scenario input: pool A
at previous rate 1, current rate 1.4, threshold 1.3 is flagged improved. -/
theorem monitor_diff_characterization_witness :
    flag_opportunity [⟨"A", 1⟩] (13 / 10) ⟨"A", 14 / 10⟩ =
      Except.ok (some ⟨⟨"A", 14 / 10⟩,
        improvedReason ((((⟨"A", 14 / 10⟩ : MonOpp).feeRate30min /
          (⟨"A", 1⟩ : MonOpp).feeRate30min - 1) * 100))⟩) :=
  ((monitor_diff_characterization.2.2.1 [⟨"A", 1⟩] (13 / 10)
      ⟨"A", 14 / 10⟩ ⟨"A", 1⟩ (by simp [List.find?])).1
    (by norm_num)).2 (by norm_num)

/-- The records of a diff output flagged through the improved branch: a
present address can only be flagged through the improved branch, so these
are exactly the flagged records whose address occurs in the previous
snapshot. -/
def improved_flags (previous : List MonOpp) (flagged : List FlaggedOpp) :
    List FlaggedOpp :=
  flagged.filter
    (fun f => (previous.map (fun p => p.address)).contains f.opp.address)

/-- The records of a diff output flagged through the new branch (address
absent from the previous snapshot). -/
def new_flags (previous : List MonOpp) (flagged : List FlaggedOpp) :
    List FlaggedOpp :=
  flagged.filter
    (fun f => !((previous.map (fun p => p.address)).contains f.opp.address))

end MeteoraPairs

namespace MeteoraPairs

/-- C6 counterexample: with a negative previous fee rate, raising the
threshold from 1 to 2 *increases* the number of flagged improved
opportunities (previous rate −1, current rate −1: −1 > −1·1 is false but
−1 > −1·2 is true), refuting the claim as stated for arbitrary snapshots. -/
theorem threshold_monotonicity_counterexample :
    (1 : ℚ) ≤ 2 ∧
    find_new_opportunities [⟨"A", -1⟩] [⟨"A", -1⟩] 1 = Except.ok [] ∧
    find_new_opportunities [⟨"A", -1⟩] [⟨"A", -1⟩] 2 =
      Except.ok [⟨⟨"A", -1⟩, improvedReason 0⟩] ∧
    (improved_flags [⟨"A", -1⟩] []).length = 0 ∧
    (improved_flags [⟨"A", -1⟩] [⟨⟨"A", -1⟩, improvedReason 0⟩]).length = 1 := by
  refine ⟨by norm_num, ?_, ?_, rfl, ?_⟩
  · norm_num [find_new_opportunities, flag_opportunity, List.find?]
  · norm_num [find_new_opportunities, flag_opportunity, List.find?]
  · norm_num [improved_flags]

/-- C6 (amended): for a fixed previous snapshot whose fee rates are all
non-negative (as produced by the opportunity evaluator) and a fixed current
list, whenever the diff completes without raising at the higher threshold it
also completes at the lower one, with no more improved-flagged records at
the higher threshold than at the lower and identical new-flagged records. -/
theorem threshold_monotonicity (previous : List MonOpp) (t1 t2 : ℚ)
    (hle : t1 ≤ t2) (hnn : ∀ p ∈ previous, 0 ≤ p.feeRate30min) :
    ∀ (current : List MonOpp) (l2 : List FlaggedOpp),
      find_new_opportunities previous current t2 = Except.ok l2 →
      ∃ l1, find_new_opportunities previous current t1 = Except.ok l1 ∧
        (improved_flags previous l2).length ≤ (improved_flags previous l1).length ∧
        new_flags previous l2 = new_flags previous l1 := by
  intro current
  induction current with
  | nil =>
    intro l2 h2
    simp only [find_new_opportunities] at h2
    injection h2 with h2
    subst h2
    exact ⟨[], rfl, le_refl _, rfl⟩
  | cons c cur ih =>
    intro l2 h2
    obtain ⟨res2, tail2, hflag2, htail2, hl2⟩ :=
      find_new_cons_ok_inv previous t2 c cur l2 h2
    obtain ⟨tail1, htail1, hcount, hnew⟩ := ih tail2 htail2
    rcases hcont : (previous.map (fun p => p.address)).contains c.address with _ | _
    · -- absent: both thresholds flag the same new record
      have habs : c.address ∉ previous.map (fun p => p.address) := by
        simpa using hcont
      have hres2 : res2 = some ⟨c, newPoolReason⟩ := by
        have h := hflag2.symm.trans (flag_absent_is_new previous t2 c habs)
        injection h
      subst hres2
      rw [show (match (some (⟨c, newPoolReason⟩ : FlaggedOpp)) with
          | some f => f :: tail2 | none => tail2) =
          (⟨c, newPoolReason⟩ : FlaggedOpp) :: tail2 from rfl] at hl2
      subst hl2
      refine ⟨⟨c, newPoolReason⟩ :: tail1,
        find_new_cons_ok previous t1 c cur (some ⟨c, newPoolReason⟩) tail1
          (flag_absent_is_new previous t1 c habs) htail1, ?_, ?_⟩
      · simp only [improved_flags] at hcount ⊢
        rw [List.filter_cons_of_neg (by simpa using hcont),
          List.filter_cons_of_neg (by simpa using hcont)]
        exact hcount
      · simp only [new_flags] at hnew ⊢
        rw [List.filter_cons_of_pos (by simpa using hcont),
          List.filter_cons_of_pos (by simpa using hcont), hnew]
    · rcases hfind : previous.find? (fun p => p.address == c.address) with _ | p
      · -- present but no matching record found: nothing flagged either way
        have hflag : ∀ t : ℚ, flag_opportunity previous t c = Except.ok none := by
          intro t
          unfold flag_opportunity
          rw [hcont, hfind]
          rfl
        have hres2 : res2 = none := by
          have h := hflag2.symm.trans (hflag t2)
          injection h
        subst hres2
        rw [show (match (none : Option FlaggedOpp) with
            | some f => f :: tail2 | none => tail2) = tail2 from rfl] at hl2
        subst hl2
        exact ⟨tail1,
          find_new_cons_ok previous t1 c cur none tail1 (hflag t1) htail1,
          hcount, hnew⟩
      · have hp0nn : 0 ≤ p.feeRate30min := hnn p (List.mem_of_find?_eq_some hfind)
        by_cases himp2 : p.feeRate30min * t2 < c.feeRate30min
        · by_cases hz : p.feeRate30min = 0
          · -- the diff would have raised at t2, contradicting success
            have h := hflag2.symm.trans
              (flag_zero_division previous t2 c p hfind hz himp2)
            exact absurd h (by simp)
          · -- improved at both thresholds, with the same record
            have himp1 : p.feeRate30min * t1 < c.feeRate30min :=
              lt_of_le_of_lt (mul_le_mul_of_nonneg_left hle hp0nn) himp2
            have hres2 : res2 = some ⟨c, improvedReason
                ((c.feeRate30min / p.feeRate30min - 1) * 100)⟩ := by
              have h := hflag2.symm.trans
                (flag_improved previous t2 c p hfind himp2 hz)
              injection h
            subst hres2
            rw [show (match (some (⟨c, improvedReason
                ((c.feeRate30min / p.feeRate30min - 1) * 100)⟩ : FlaggedOpp)) with
                | some f => f :: tail2 | none => tail2) =
                (⟨c, improvedReason ((c.feeRate30min / p.feeRate30min - 1) * 100)⟩ :
                  FlaggedOpp) :: tail2 from rfl] at hl2
            subst hl2
            refine ⟨⟨c, improvedReason ((c.feeRate30min / p.feeRate30min - 1) * 100)⟩ ::
                tail1,
              find_new_cons_ok previous t1 c cur _ tail1
                (flag_improved previous t1 c p hfind himp1 hz) htail1, ?_, ?_⟩
            · simp only [improved_flags] at hcount ⊢
              rw [List.filter_cons_of_pos (by simpa using hcont),
                List.filter_cons_of_pos (by simpa using hcont)]
              simp only [List.length_cons]
              exact Nat.succ_le_succ hcount
            · simp only [new_flags] at hnew ⊢
              rw [List.filter_cons_of_neg (by simpa using hcont),
                List.filter_cons_of_neg (by simpa using hcont), hnew]
        · -- not improved at t2: flagged nothing there
          have hres2 : res2 = none := by
            have h := hflag2.symm.trans
              (flag_not_improved previous t2 c p hfind himp2)
            injection h
          subst hres2
          rw [show (match (none : Option FlaggedOpp) with
              | some f => f :: tail2 | none => tail2) = tail2 from rfl] at hl2
          subst hl2
          by_cases himp1 : p.feeRate30min * t1 < c.feeRate30min
          · -- improved only at the lower threshold: one extra improved flag
            have hz : p.feeRate30min ≠ 0 := by
              intro h0
              rw [h0, zero_mul] at himp1 himp2
              exact himp2 himp1
            refine ⟨⟨c, improvedReason ((c.feeRate30min / p.feeRate30min - 1) * 100)⟩ ::
                tail1,
              find_new_cons_ok previous t1 c cur _ tail1
                (flag_improved previous t1 c p hfind himp1 hz) htail1, ?_, ?_⟩
            · simp only [improved_flags] at hcount ⊢
              rw [List.filter_cons_of_pos (by simpa using hcont)]
              rw [List.length_cons]
              exact Nat.le_succ_of_le hcount
            · simp only [new_flags] at hnew ⊢
              rw [List.filter_cons_of_neg (by simpa using hcont), hnew]
          · exact ⟨tail1,
              find_new_cons_ok previous t1 c cur none tail1
                (flag_not_improved previous t1 c p hfind himp1) htail1,
              hcount, hnew⟩

/-- Witness for `threshold_monotonicity`: previous rate 1, current rate 1.4,
thresholds 1.3 ≤ 2 (at 2 the record is not improved, so the diff returns
the empty flag list). -/
theorem threshold_monotonicity_witness :
    ∃ l1, find_new_opportunities [⟨"A", 1⟩] [⟨"A", 14 / 10⟩] (13 / 10) =
        Except.ok l1 ∧
      (improved_flags [⟨"A", 1⟩] ([] : List FlaggedOpp)).length ≤
        (improved_flags [⟨"A", 1⟩] l1).length ∧
      new_flags [⟨"A", 1⟩] ([] : List FlaggedOpp) = new_flags [⟨"A", 1⟩] l1 :=
  threshold_monotonicity [⟨"A", 1⟩] (13 / 10) 2 (by norm_num)
    (by rintro p hp; rw [List.mem_singleton] at hp; subst hp; norm_num)
    [⟨"A", 14 / 10⟩] []
    (by norm_num [find_new_opportunities, flag_opportunity, List.find?])

/-! ## Monitor tick (`MonitoringService._check_opportunities`) -/

/-- A wallet's `monitoring_configs` row, restricted to the fields
`_check_opportunities` reads and writes.  Timestamps are in minutes. -/
structure MonitoringConfig where
  enabled : Bool
  interval_minutes : ℤ
  threshold_multiplier : ℚ
  last_check : Option ℤ
  next_check : Option ℤ
  deriving Repr, DecidableEq

/-- The persisted state one monitor tick touches: the wallet's config row
(if any) and its opportunity snapshots, newest first. -/
structure MonitorState where
  config : Option MonitoringConfig
  snapshots : List (List MonOpp)
  deriving Repr, DecidableEq

/-- `MonitoringService._check_opportunities` for one wallet, with the outcome
of `_fetch_opportunities` passed in (`none` models its failure return, which
covers both HTTP errors and non-200 statuses).  The config query filters on
`enabled == True`, so a disabled row behaves like a missing one.  A
`ZeroDivisionError` raised by the diff lands in the tick's `except` handler,
which rolls back: nothing is persisted and nothing sent.  Returns the new
persisted state and the notifications sent
(`_send_telegram_notifications` delivers at most the first five flagged
records). -/
def check_opportunities (s : MonitorState) (now : ℤ)
    (fetched : Option (List MonOpp)) : MonitorState × List FlaggedOpp :=
  match s.config with
  | none => (s, [])
  | some config =>
    if !config.enabled then (s, [])
    else
      match fetched with
      | none => (s, [])
      | some opportunities =>
        match find_new_opportunities (s.snapshots.head?.getD []) opportunities
            config.threshold_multiplier with
        | Except.error _ => (s, [])
        | Except.ok new_opportunities =>
          let notified :=
            if new_opportunities.isEmpty then [] else new_opportunities.take 5
          ({ config := some { config with
                last_check := some now
                next_check := some (now + config.interval_minutes) }
             snapshots := opportunities :: s.snapshots }, notified)

end MeteoraPairs

namespace MeteoraPairs

/-- C7 counterexample: with an enabled config, a successful fetch, and the
head snapshot holding pool A at rate 0 while the current list holds A at a
positive rate, the diff raises `ZeroDivisionError` and the real tick rolls
back — no snapshot is written and `last_check`/`next_check` stay unset —
contradicting the claim that every such tick persists. -/
theorem tick_semantics_counterexample :
    (⟨some ⟨true, 15, 13 / 10, none, none⟩, [[⟨"A", 0⟩]]⟩ : MonitorState).config =
      some ⟨true, 15, 13 / 10, none, none⟩ ∧
    (⟨true, 15, 13 / 10, none, none⟩ : MonitoringConfig).enabled = true ∧
    check_opportunities ⟨some ⟨true, 15, 13 / 10, none, none⟩, [[⟨"A", 0⟩]]⟩ 100
        (some [⟨"A", 1⟩]) =
      (⟨some ⟨true, 15, 13 / 10, none, none⟩, [[⟨"A", 0⟩]]⟩, []) := by
  refine ⟨rfl, rfl, ?_⟩
  norm_num [check_opportunities, find_new_opportunities, flag_opportunity,
    List.find?]

/-- C7 (amended): a tick whose config is absent or disabled, or whose
opportunity fetch fails, leaves the persisted state untouched and sends
nothing; so does a tick whose diff raises `ZeroDivisionError` (rollback);
a tick whose diff completes prepends the full current opportunity list as a
new snapshot and sets `last_check = now`, `next_check = now + interval`. -/
theorem tick_semantics (s : MonitorState) (now : ℤ)
    (fetched : Option (List MonOpp)) :
    (s.config = none → check_opportunities s now fetched = (s, [])) ∧
    (∀ c, s.config = some c → c.enabled = false →
      check_opportunities s now fetched = (s, [])) ∧
    (fetched = none → check_opportunities s now fetched = (s, [])) ∧
    (∀ c opps e, s.config = some c → c.enabled = true → fetched = some opps →
      find_new_opportunities (s.snapshots.head?.getD []) opps
        c.threshold_multiplier = Except.error e →
      check_opportunities s now fetched = (s, [])) ∧
    (∀ c opps flagged, s.config = some c → c.enabled = true → fetched = some opps →
      find_new_opportunities (s.snapshots.head?.getD []) opps
        c.threshold_multiplier = Except.ok flagged →
      (check_opportunities s now fetched).1.snapshots = opps :: s.snapshots ∧
      (check_opportunities s now fetched).1.config =
        some { c with last_check := some now
                      next_check := some (now + c.interval_minutes) }) := by
  refine ⟨?_, ?_, ?_, ?_, ?_⟩
  · intro h; simp [check_opportunities, h]
  · intro c hc he; simp [check_opportunities, hc, he]
  · intro h
    rcases hc : s.config with _ | c
    · simp [check_opportunities, hc]
    · rcases hen : c.enabled <;> simp [check_opportunities, hc, hen, h]
  · intro c opps e hc he hf hdiff
    simp [check_opportunities, hc, he, hf, hdiff]
  · intro c opps flagged hc he hf hdiff
    simp [check_opportunities, hc, he, hf, hdiff]

/-- Witness for `tick_semantics`: a disabled config makes the tick a no-op,
and an enabled one whose diff completes persists the snapshot and both
timestamps. -/
theorem tick_semantics_witness :
    (check_opportunities ⟨some ⟨false, 15, 13 / 10, none, none⟩, []⟩ 0
        (some [⟨"A", 1⟩]) = (⟨some ⟨false, 15, 13 / 10, none, none⟩, []⟩, [])) ∧
    (check_opportunities ⟨some ⟨true, 15, 13 / 10, none, none⟩, []⟩ 100
        (some [⟨"A", 1⟩])).1.snapshots = [[⟨"A", 1⟩]] ∧
    (check_opportunities ⟨some ⟨true, 15, 13 / 10, none, none⟩, []⟩ 100
        (some [⟨"A", 1⟩])).1.config = some ⟨true, 15, 13 / 10, some 100, some 115⟩ := by
  have h1 := (tick_semantics ⟨some ⟨false, 15, 13 / 10, none, none⟩, []⟩ 0
    (some [⟨"A", 1⟩])).2.1 ⟨false, 15, 13 / 10, none, none⟩ rfl rfl
  have h2 := (tick_semantics ⟨some ⟨true, 15, 13 / 10, none, none⟩, []⟩ 100
    (some [⟨"A", 1⟩])).2.2.2.2 ⟨true, 15, 13 / 10, none, none⟩ [⟨"A", 1⟩]
    [⟨⟨"A", 1⟩, newPoolReason⟩] rfl rfl rfl
    (by norm_num [find_new_opportunities, flag_opportunity])
  exact ⟨h1, h2.1, by rw [h2.2]; norm_num⟩

/-! ## Automation action queue
(`LiquidityMonitoringService._queue_action` in
`src/backend/liquidity_monitoring_service.py`) -/

/-- A row of the `position_monitoring_queue` table. -/
structure QueueEntry where
  position_address : String
  action_type : String
  status : String
  created_at : ℤ
  deriving Repr, DecidableEq

/-- `_queue_action`: the effect on the queue table of
`INSERT ... ON CONFLICT (position_address) DO UPDATE SET action_type = ...,
status = 'pending', created_at = NOW()` — PostgreSQL upsert semantics under
the table's uniqueness of `position_address`. -/
def queue_action (queue : List QueueEntry) (position_address action_type : String)
    (now : ℤ) : List QueueEntry :=
  if queue.any (fun e => e.position_address == position_address) then
    queue.map fun e =>
      if e.position_address == position_address then
        { e with action_type := action_type, status := "pending", created_at := now }
      else e
  else
    queue ++ [⟨position_address, action_type, "pending", now⟩]

/-- Upserting over an existing row for `P` leaves exactly the one updated
row for `P`. -/
theorem queue_action_filter_updated (queue : List QueueEntry) (P B : String)
    (now : ℤ) (e : QueueEntry)
    (hrow : queue.filter (fun x => x.position_address == P) = [e]) :
    (queue_action queue P B now).filter (fun x => x.position_address == P) =
      [⟨P, B, "pending", now⟩] := by
  have hmem : e ∈ queue.filter (fun x => x.position_address == P) := by
    rw [hrow]; exact List.mem_singleton_self e
  have hpe : (e.position_address == P) = true := (List.mem_filter.mp hmem).2
  have hpe' : e.position_address = P := by simpa using hpe
  have hany : queue.any (fun x => x.position_address == P) = true :=
    List.any_eq_true.mpr ⟨e, (List.mem_filter.mp hmem).1, hpe⟩
  unfold queue_action
  rw [if_pos hany]
  rw [List.filter_map]
  have hcong : queue.filter
      ((fun x : QueueEntry => x.position_address == P) ∘ fun x =>
        if x.position_address == P then
          { x with action_type := B, status := "pending", created_at := now }
        else x) = queue.filter (fun x => x.position_address == P) := by
    apply List.filter_congr
    intro x _
    by_cases hx : x.position_address = P <;> simp [hx]
  rw [hcong, hrow]
  simp [hpe, hpe']

/-- The at-most-one-row-per-position invariant is preserved by
`queue_action`. -/
theorem queue_action_unique_preserved (queue : List QueueEntry) (P B : String)
    (now : ℤ)
    (huniq : ∀ a, (queue.filter (fun x => x.position_address == a)).length ≤ 1)
    (a : String) :
    ((queue_action queue P B now).filter
      (fun x => x.position_address == a)).length ≤ 1 := by
  unfold queue_action
  by_cases hany : queue.any (fun e => e.position_address == P) = true
  · rw [if_pos hany, List.filter_map]
    have hcong : queue.filter
        ((fun x : QueueEntry => x.position_address == a) ∘ fun x =>
          if x.position_address == P then
            { x with action_type := B, status := "pending", created_at := now }
          else x) = queue.filter (fun x => x.position_address == a) := by
      apply List.filter_congr
      intro x _
      by_cases hx : x.position_address = P <;> simp [hx]
    rw [hcong, List.length_map]
    exact huniq a
  · rw [if_neg hany, List.filter_append]
    by_cases ha : P = a
    · subst ha
      have hnil : queue.filter (fun x => x.position_address == P) = [] := by
        rw [List.filter_eq_nil_iff]
        intro x hx hpx
        exact hany (List.any_eq_true.mpr ⟨x, hx, hpx⟩)
      rw [hnil]
      simp
    · have hone : ([(⟨P, B, "pending", now⟩ : QueueEntry)].filter
          (fun x => x.position_address == a)) = [] := by
        simp [ha]
      rw [hone]
      simpa using huniq a

/-- C8: enqueueing action `B` for position `P` while one entry (of any type,
e.g. a pending `A`) exists for `P` leaves exactly one queue row for `P`, with
`action_type = B` and `status = 'pending'`; moreover the at-most-one-entry-
per-position invariant is preserved by every enqueue. -/
theorem queue_upsert_semantics (queue : List QueueEntry) (P B : String) (now : ℤ) :
    (∀ e, queue.filter (fun x => x.position_address == P) = [e] →
      (queue_action queue P B now).filter (fun x => x.position_address == P) =
        [⟨P, B, "pending", now⟩]) ∧
    ((∀ a, (queue.filter (fun x => x.position_address == a)).length ≤ 1) →
      ∀ a, ((queue_action queue P B now).filter
        (fun x => x.position_address == a)).length ≤ 1) :=
  ⟨fun e hrow => queue_action_filter_updated queue P B now e hrow,
   fun huniq a => queue_action_unique_preserved queue P B now huniq a⟩

/-- Witness for `queue_upsert_semantics`: a pending `take_profit` row for
`"P1"` is overwritten by a `stop_loss` enqueue. -/
theorem queue_upsert_semantics_witness :
    (queue_action [⟨"P1", "take_profit", "pending", 0⟩] "P1" "stop_loss" 5).filter
      (fun x => x.position_address == "P1") = [⟨"P1", "stop_loss", "pending", 5⟩] :=
  (queue_upsert_semantics [⟨"P1", "take_profit", "pending", 0⟩] "P1" "stop_loss" 5).1
    ⟨"P1", "take_profit", "pending", 0⟩ (by decide)

/-! ## Position rule evaluation
(`LiquidityMonitoringService._check_position` and
`_check_rebalance_triggers`) -/

/-- One entry of a rules row's `rebalance_triggers` JSON list. -/
structure RebalanceTrigger where
  type : String
  value : ℚ
  deriving Repr, DecidableEq

/-- A `position_automation_rules` row, restricted to the fields
`_check_position` reads. -/
structure AutomationRules where
  take_profit_enabled : Bool
  take_profit_type : String
  take_profit_value : ℚ
  stop_loss_enabled : Bool
  stop_loss_type : String
  stop_loss_value : ℚ
  rebalancing_enabled : Bool
  rebalance_triggers : List RebalanceTrigger
  deriving Repr, DecidableEq

/-- `_check_rebalance_triggers`: a fee-threshold trigger fires when the
accumulated fees reach its value; `price_drift` and `imbalance_change`
triggers are unimplemented (`pass`) and never fire. -/
def check_rebalance_triggers (fees_earned_usd : ℚ)
    (triggers : List RebalanceTrigger) : Bool :=
  triggers.any fun trigger =>
    trigger.type == "fee_threshold" && decide (trigger.value ≤ fees_earned_usd)

/-- The nested take-profit guard of `_check_position`:
`rules.take_profit_enabled`, then `rules.take_profit_type == 'percentage'`,
then `profit_percentage >= rules.take_profit_value`. -/
def tp_condition (rules : AutomationRules) (profit_percentage : ℚ) : Bool :=
  rules.take_profit_enabled && (rules.take_profit_type == "percentage") &&
    decide (rules.take_profit_value ≤ profit_percentage)

/-- The nested stop-loss guard of `_check_position`. -/
def sl_condition (rules : AutomationRules) (profit_percentage : ℚ) : Bool :=
  rules.stop_loss_enabled && (rules.stop_loss_type == "percentage") &&
    decide (profit_percentage ≤ rules.stop_loss_value)

/-- The rebalancing guard of `_check_position`
(`rules.rebalancing_enabled and rules.rebalance_triggers` — an empty trigger
list is falsy — and `_check_rebalance_triggers`). -/
def rb_condition (rules : AutomationRules) (fees_earned_usd : ℚ) : Bool :=
  rules.rebalancing_enabled && !rules.rebalance_triggers.isEmpty &&
    check_rebalance_triggers fees_earned_usd rules.rebalance_triggers

/-- The rule-evaluation tail of `_check_position` (after the position row has
been refreshed and `profit_percentage` computed): which action, if any, is
enqueued for the position this tick.  The source's early `return` after a
fired take-profit/stop-loss is the if/else-if chain here. -/
def check_position_action (rules : AutomationRules)
    (profit_percentage fees_earned_usd : ℚ) : Option String :=
  if tp_condition rules profit_percentage then some "take_profit"
  else if sl_condition rules profit_percentage then some "stop_loss"
  else if rb_condition rules fees_earned_usd then some "rebalance"
  else none

end MeteoraPairs

namespace MeteoraPairs

/-- C9 counterexample: with take-profit enabled but
`take_profit_type = "usd_amount"` and profit 50 ≥ value 10, no `take_profit`
action is enqueued, refuting the claim's "if take-profit is enabled and
profit ≥ takeProfitValue, only a take_profit action is enqueued" as stated
(the type gate is missing from it). -/
theorem check_position_priority_counterexample :
    (⟨true, "usd_amount", 10, false, "percentage", 0, false, []⟩ :
        AutomationRules).take_profit_enabled = true ∧
    (⟨true, "usd_amount", 10, false, "percentage", 0, false, []⟩ :
        AutomationRules).take_profit_value ≤ 50 ∧
    check_position_action ⟨true, "usd_amount", 10, false, "percentage", 0, false, []⟩
      50 0 ≠ some "take_profit" := by
  refine ⟨rfl, by norm_num, ?_⟩
  rw [check_position_action,
    if_neg (show ¬tp_condition _ 50 = true by decide),
    if_neg (show ¬sl_condition _ 50 = true by decide),
    if_neg (show ¬rb_condition _ 0 = true by decide)]
  decide

/-- C9 (amended): rules are evaluated in the fixed order take-profit, then
stop-loss, then rebalancing, each take-profit/stop-loss rule additionally
gated on its type being `'percentage'`: if the take-profit guard holds, only
`take_profit` is enqueued; else if the stop-loss guard holds, only
`stop_loss`; a `rebalance` is enqueued only when neither fired and a
configured trigger fires; take-profit and stop-loss are never both
enqueued in one tick. -/
theorem check_position_priority (rules : AutomationRules) (profit fees : ℚ) :
    (rules.take_profit_enabled = true → rules.take_profit_type = "percentage" →
      rules.take_profit_value ≤ profit →
      check_position_action rules profit fees = some "take_profit") ∧
    (¬(rules.take_profit_enabled = true ∧ rules.take_profit_type = "percentage" ∧
        rules.take_profit_value ≤ profit) →
      rules.stop_loss_enabled = true → rules.stop_loss_type = "percentage" →
      profit ≤ rules.stop_loss_value →
      check_position_action rules profit fees = some "stop_loss") ∧
    (check_position_action rules profit fees = some "rebalance" →
      ¬(rules.take_profit_enabled = true ∧ rules.take_profit_type = "percentage" ∧
          rules.take_profit_value ≤ profit) ∧
      ¬(rules.stop_loss_enabled = true ∧ rules.stop_loss_type = "percentage" ∧
          profit ≤ rules.stop_loss_value) ∧
      rules.rebalancing_enabled = true ∧
      check_rebalance_triggers fees rules.rebalance_triggers = true) ∧
    ¬(check_position_action rules profit fees = some "take_profit" ∧
      check_position_action rules profit fees = some "stop_loss") := by
  have htp : tp_condition rules profit = true ↔
      (rules.take_profit_enabled = true ∧ rules.take_profit_type = "percentage" ∧
        rules.take_profit_value ≤ profit) := by
    rw [tp_condition, Bool.and_eq_true, Bool.and_eq_true]
    constructor
    · rintro ⟨⟨a, b⟩, c⟩
      exact ⟨a, by simpa using b, of_decide_eq_true c⟩
    · rintro ⟨a, b, c⟩
      exact ⟨⟨a, by simpa using b⟩, decide_eq_true c⟩
  have hsl : sl_condition rules profit = true ↔
      (rules.stop_loss_enabled = true ∧ rules.stop_loss_type = "percentage" ∧
        profit ≤ rules.stop_loss_value) := by
    rw [sl_condition, Bool.and_eq_true, Bool.and_eq_true]
    constructor
    · rintro ⟨⟨a, b⟩, c⟩
      exact ⟨a, by simpa using b, of_decide_eq_true c⟩
    · rintro ⟨a, b, c⟩
      exact ⟨⟨a, by simpa using b⟩, decide_eq_true c⟩
  refine ⟨?_, ?_, ?_, ?_⟩
  · intro h1 h2 h3
    rw [check_position_action, if_pos (htp.mpr ⟨h1, h2, h3⟩)]
  · intro hno h1 h2 h3
    rw [check_position_action, if_neg (fun hc => hno (htp.mp hc)),
      if_pos (hsl.mpr ⟨h1, h2, h3⟩)]
  · intro h
    rw [check_position_action] at h
    by_cases h1 : tp_condition rules profit = true
    · rw [if_pos h1] at h
      exact absurd h (by decide)
    · rw [if_neg h1] at h
      by_cases h2 : sl_condition rules profit = true
      · rw [if_pos h2] at h
        exact absurd h (by decide)
      · rw [if_neg h2] at h
        by_cases h3 : rb_condition rules fees = true
        · rw [rb_condition, Bool.and_eq_true, Bool.and_eq_true] at h3
          exact ⟨fun hx => h1 (htp.mpr hx), fun hx => h2 (hsl.mpr hx),
            h3.1.1, h3.2⟩
        · rw [if_neg h3] at h
          exact absurd h (by decide)
  · rintro ⟨h1, h2⟩
    rw [h1] at h2
    exact absurd (Option.some.inj h2) (by decide)

/-- Witness for `check_position_priority`: take-profit (type percentage)
fires at profit 50 ≥ value 10 even with stop-loss configured. -/
theorem check_position_priority_witness :
    check_position_action ⟨true, "percentage", 10, true, "percentage", -5, false, []⟩
      50 0 = some "take_profit" :=
  (check_position_priority ⟨true, "percentage", 10, true, "percentage", -5, false, []⟩
    50 0).1 rfl rfl (by norm_num)

/-- C10: a take-profit or stop-loss rule whose type is not `'percentage'`
never fires — no matching action is enqueued at any profit value, and the
tick behaves exactly as if that rule were disabled. -/
theorem non_percentage_rule_skipped (rules : AutomationRules) (profit fees : ℚ) :
    (rules.take_profit_type ≠ "percentage" →
      check_position_action rules profit fees ≠ some "take_profit" ∧
      check_position_action rules profit fees =
        check_position_action { rules with take_profit_enabled := false } profit fees) ∧
    (rules.stop_loss_type ≠ "percentage" →
      check_position_action rules profit fees ≠ some "stop_loss" ∧
      check_position_action rules profit fees =
        check_position_action { rules with stop_loss_enabled := false } profit fees) := by
  constructor
  · intro hty
    have hc : ¬tp_condition rules profit = true := by
      rw [tp_condition, Bool.and_eq_true, Bool.and_eq_true]
      rintro ⟨⟨_, b⟩, _⟩
      exact hty (by simpa using b)
    have hc' : ¬tp_condition { rules with take_profit_enabled := false } profit = true := by
      rw [tp_condition]
      simp
    have hsame : check_position_action rules profit fees =
        check_position_action { rules with take_profit_enabled := false } profit fees := by
      rw [check_position_action, check_position_action, if_neg hc, if_neg hc']
      rfl
    refine ⟨?_, hsame⟩
    rw [check_position_action, if_neg hc]
    by_cases h2 : sl_condition rules profit = true
    · rw [if_pos h2]; decide
    · rw [if_neg h2]
      by_cases h3 : rb_condition rules fees = true
      · rw [if_pos h3]; decide
      · rw [if_neg h3]; decide
  · intro hty
    have hc : ¬sl_condition rules profit = true := by
      rw [sl_condition, Bool.and_eq_true, Bool.and_eq_true]
      rintro ⟨⟨_, b⟩, _⟩
      exact hty (by simpa using b)
    have hc' : ¬sl_condition { rules with stop_loss_enabled := false } profit = true := by
      rw [sl_condition]
      simp
    have hsame : check_position_action rules profit fees =
        check_position_action { rules with stop_loss_enabled := false } profit fees := by
      rw [check_position_action, check_position_action]
      by_cases h1 : tp_condition rules profit = true
      · rw [if_pos h1, if_pos (show tp_condition { rules with stop_loss_enabled := false }
          profit = true from h1)]
      · rw [if_neg h1, if_neg (show ¬tp_condition { rules with stop_loss_enabled := false }
          profit = true from h1), if_neg hc, if_neg hc']
        rfl
    refine ⟨?_, hsame⟩
    rw [check_position_action]
    by_cases h1 : tp_condition rules profit = true
    · rw [if_pos h1]; decide
    · rw [if_neg h1, if_neg hc]
      by_cases h3 : rb_condition rules fees = true
      · rw [if_pos h3]; decide
      · rw [if_neg h3]; decide

/-- Witness for `non_percentage_rule_skipped` at a concrete rules row with
`take_profit_type = "usd_amount"`. -/
theorem non_percentage_rule_skipped_witness :
    check_position_action ⟨true, "usd_amount", 10, false, "percentage", 0, false, []⟩
      50 0 ≠ some "take_profit" ∧
    check_position_action ⟨true, "usd_amount", 10, false, "percentage", 0, false, []⟩
      50 0 =
      check_position_action ⟨false, "usd_amount", 10, false, "percentage", 0, false, []⟩
        50 0 :=
  (non_percentage_rule_skipped
    ⟨true, "usd_amount", 10, false, "percentage", 0, false, []⟩ 50 0).1
    (by decide)

end MeteoraPairs
